import Mathlib

/-!
Verification of the VhostScanner repository (Go) against its design
specification.

The repository contains three revisions of the same single-file program:
`src/main.go`, `src/unnamed/part_000` and the rewrite embedded at the end of
`src/README.md`.  The definitions below are shallow embeddings of the
functions of those files:

* the Candidate Aggregator: the line-parsing loop of `main` (identical in
  all three revisions up to the `found`/`sanFound` variable slip of the
  README revision, which is not modelled here — the claims about the
  aggregator cite `src/main.go`, whose loop is embedded faithfully);
* `checkVHost` of `src/unnamed/part_000` (no early returns after the TLS
  dial, `finalResults` slice) and `checkVHostRm`, the README revision
  (early return on every per-probe error, `sync.Map` result model);
* the title extraction `body[start+7:end]` with Go slice semantics: an
  out-of-range slice is a runtime panic, modelled as `Option.none`;
* the `sync.Map` result model of the README revision (`storeFinding`);
* the per-record DNS lookup-name computation of `main` with its discarded
  `https://`-stripping assignment (`lookupName`).

Network effects (TLS dial, HTTP request, body read, DNS lookup) are the
probe environment `ProbeEnv`: each Boolean field records whether the
corresponding fallible operation of the source succeeds, and the data
fields carry what those operations return on success.
-/

/-! ## Candidate Aggregator (parsing loop of `main`) -/

/-- Go `unicode.IsSpace` on the characters relevant to `strings.TrimSpace`. -/
def isGoSpace (c : Char) : Bool :=
  c = ' ' || c = '\t' || c = '\n' || c = '\x0b' || c = '\x0c' || c = '\r' ||
    c = '\u0085' || c = '\u00A0'

/-- Go `strings.TrimSpace`: drop leading and trailing white space. -/
def goTrimSpace (s : String) : String :=
  String.mk (((s.data.dropWhile isGoSpace).reverse.dropWhile isGoSpace).reverse)

/-- Go `strings.Split(s, " ")` on the character list: split around every
single space character, keeping empty fields. -/
def splitSpAux : List Char → List (List Char)
  | [] => [[]]
  | c :: rest =>
    if c = ' ' then [] :: splitSpAux rest
    else
      match splitSpAux rest with
      | [] => [[c]]
      | t :: ts => (c :: t) :: ts

/-- Go `strings.Split(line, " ")`. -/
def goSplitSpace (s : String) : List String :=
  (splitSpAux s.data).map String.mk

def isSquareBracket (c : Char) : Bool :=
  c = '[' || c = ']'

/-- Go `strings.Trim(parts[1], "[]")`: drop every leading and trailing
character of the cut set. -/
def goTrimBrackets (s : String) : String :=
  String.mk (((s.data.dropWhile isSquareBracket).reverse.dropWhile isSquareBracket).reverse)

/-- The `TLSxResults` struct of the source. -/
structure TLSxResults where
  Host : String
  IP : List String
  SAN : List String
deriving DecidableEq

/-- The inner SAN-deduplication of the parsing loop: append `san` to the
record unless it is already present (`sanFound` scan of `src/main.go`). -/
def applySan (t : TLSxResults) (san : String) : TLSxResults :=
  if san ∈ t.SAN then t else { t with SAN := t.SAN ++ [san] }

/-- The `for i, t := range tlsxResults` scan of the parsing loop: find the
first record with the given host and update its SAN list (`break` after the
first match); `none` when no record has the host (`found` stays false). -/
def updateHost : List TLSxResults → String → String → Option (List TLSxResults)
  | [], _, _ => none
  | t :: ts, host, san =>
    if t.Host = host then some (applySan t san :: ts)
    else (updateHost ts host san).map (fun rest => t :: rest)

/-- One iteration of the `for scanner.Scan()` loop of `main`
(`src/main.go` lines 119-170): trim the line, skip it when empty or when it
splits into fewer than two space-separated fields, otherwise insert
`(parts[0], strings.Trim(parts[1], "[]"))` into the accumulated records. -/
def processLine (acc : List TLSxResults) (raw : String) : List TLSxResults :=
  let line := goTrimSpace raw
  if line = "" then acc
  else
    let parts := goSplitSpace line
    if parts.length < 2 then acc
    else
      let san := goTrimBrackets (parts.getD 1 "")
      if acc.length = 0 then [{ Host := parts.getD 0 "", IP := [], SAN := [san] }]
      else
        match updateHost acc (parts.getD 0 "") san with
        | some acc2 => acc2
        | none => acc ++ [{ Host := parts.getD 0 "", IP := [], SAN := [san] }]

/-- The whole scanner loop: fold `processLine` over the input lines. -/
def parseLines (lines : List String) : List TLSxResults :=
  lines.foldl processLine []

/-! ## Characterisation of the aggregator (used to state the claims) -/

/-- The pair of tokens a line contributes, `none` when the line is skipped:
the guard conditions and token extraction of `processLine`, factored out. -/
def lineTokens (raw : String) : Option (String × String) :=
  let line := goTrimSpace raw
  if line = "" then none
  else
    let parts := goSplitSpace line
    if parts.length < 2 then none
    else some (parts.getD 0 "", goTrimBrackets (parts.getD 1 ""))

/-- The record-insertion step of the parsing loop on an already-extracted
`(hostname, san)` pair. -/
def step (acc : List TLSxResults) (p : String × String) : List TLSxResults :=
  if acc.length = 0 then [{ Host := p.1, IP := [], SAN := [p.2] }]
  else
    match updateHost acc p.1 p.2 with
    | some acc2 => acc2
    | none => acc ++ [{ Host := p.1, IP := [], SAN := [p.2] }]

/-- The parsing loop on a list of already-extracted token pairs. -/
def aggPairs (P : List (String × String)) : List TLSxResults :=
  P.foldl step []

/-- One step of first-seen deduplication. -/
def pushFS (acc : List String) (x : String) : List String :=
  if x ∈ acc then acc else acc ++ [x]

/-- First-seen-order deduplication of a list of strings. -/
def dedupFS (l : List String) : List String :=
  l.foldl pushFS []

/-- The SAN values of all token pairs bearing a given hostname, in order. -/
def sansFor (P : List (String × String)) (h : String) : List String :=
  (P.filter (fun p => p.1 == h)).map Prod.snd

/-- The record the specification prescribes for hostname `h`: SAN values of
all lines bearing `h`, deduplicated in first-seen order. -/
def specRecord (P : List (String × String)) (h : String) : TLSxResults :=
  { Host := h, IP := [], SAN := dedupFS (sansFor P h) }

/-- Modelled from the specification of the Aggregator: one record per
distinct hostname in first-seen order, SAN values deduplicated per hostname
in first-seen order. -/
def aggSpec (P : List (String × String)) : List TLSxResults :=
  (dedupFS (P.map Prod.fst)).map (specRecord P)

/-- Helper for `specFields`: split on runs of white space, dropping empty
fields; `cur` is the reversed field being accumulated. -/
def fieldsAux : List Char → List Char → List (List Char)
  | [], [] => []
  | [], cur => [cur.reverse]
  | c :: rest, cur =>
    if isGoSpace c then
      if cur = [] then fieldsAux rest []
      else cur.reverse :: fieldsAux rest []
    else fieldsAux rest (c :: cur)

/-- Modelled from the words of claim C6: the whitespace-delimited tokens of
a line (what Go `strings.Fields` would return). The source does NOT use
this; it splits on single space characters only. -/
def specFields (s : String) : List String :=
  (fieldsAux s.data []).map String.mk

/-! ## Probe engine data model -/

/-- Console/log output events of one probe, abstracting the `log.Printf`
and `color.Green` calls of `checkVHost`. -/
inductive LogEvent where
  | connectErr
  | requestErr
  | sendErr
  | readErr
  | interesting
deriving DecidableEq

/-- The `Results` struct of the README revision. -/
structure Results where
  ResponseStatus : String
  Host : String
  IP : String
  Title : String
  ResponseHeaders : List String
  ResponseBody : String
deriving DecidableEq

/-- The `Results` struct of `src/unnamed/part_000` (headers kept as
key/joined-value pairs, mirroring its `[]map[string]string`). -/
structure ResultsP where
  Host : String
  IP : String
  ResponseHeaders : List (String × String)
  ResponseBody : String
  ResponseStatus : String
  Title : String
deriving DecidableEq

/-- Environment of one probe: the outcome of every fallible external
operation `checkVHost` performs, plus the flags.  `readSoFar` is what
`io.ReadAll` has accumulated when the body read fails (never a nil slice). -/
structure ProbeEnv where
  dialOk : Bool
  reqOk : Bool
  sendOk : Bool
  readOk : Bool
  status : String
  headers : List (String × List String)
  body : String
  readSoFar : String
  dnsOk : Bool
  verbose : Bool
  includeBody : Bool
deriving DecidableEq

/-- Result of one probe: the stored finding (if any), the log/console
events, and whether the goroutine panicked (which crashes the process). -/
structure ProbeResult (α : Type) where
  finding : Option α
  logs : List LogEvent
  panicked : Bool
deriving DecidableEq

/-- Go `strings.Join(v, " ")`. -/
def joinSpace (l : List String) : String :=
  String.intercalate " " l

/-- Header lines of the README revision:
`fmt.Sprintf` of key and space-joined values per header. -/
def joinedHeaderLines (hs : List (String × List String)) : List String :=
  hs.map (fun p => p.1 ++ ": " ++ joinSpace p.2)

/-- Header pairs of the `part_000` revision: one singleton map per header. -/
def pairHeaderLines (hs : List (String × List String)) : List (String × String) :=
  hs.map (fun p => (p.1, joinSpace p.2))

/-- Go `strings.Index` on character lists: position of the first occurrence
of `pat`, `none` when absent (Go returns -1).  Byte offsets of the source
are modelled as character offsets; the markers searched for are ASCII, and
offsets are only ever compared to each other, so the two agree. -/
def strIndex (pat : List Char) : List Char → Option Nat
  | [] => if pat.isPrefixOf ([] : List Char) then some 0 else none
  | c :: t =>
    if pat.isPrefixOf (c :: t) then some 0
    else (strIndex pat t).map (fun n => n + 1)

/-- The title extraction of `checkVHost`:
`strings.Contains`, then `title = body[start+7 : end]` where
`start = strings.Index(body, "<title>")` and
`end = strings.Index(body, "</title>")`.  A Go slice expression whose
bounds are not `0 <= lo <= hi <= len` panics at run time; `none` models
that panic (it occurs when `end` is -1 or smaller than `start+7`). -/
def extractTitle (body : String) : Option String :=
  match strIndex "<title>".data body.data with
  | none => some ""
  | some start =>
    match strIndex "</title>".data body.data with
    | none => none
    | some stop =>
      if start + 7 ≤ stop then some (String.mk ((body.data.take stop).drop (start + 7)))
      else none

/-- `checkVHost` of `src/unnamed/part_000` (and, except for the finding
record, of `src/main.go`).  After a failed `http.NewRequest` the code logs
but does not return, then executes `httpReq.Host = s` on the nil request —
a nil-pointer dereference, modelled as a panic.  After a failed
`io.ReadAll` the code continues with the partially read body, and
`body != nil` is always true because `io.ReadAll` never returns a nil
slice.  Each probe runs this function exactly once: no retry exists. -/
def checkVHost (env : ProbeEnv) (s i : String) : ProbeResult ResultsP :=
  if env.dialOk = false then
    { finding := none
      logs := if env.verbose then [LogEvent.connectErr] else []
      panicked := false }
  else if env.reqOk = false then
    { finding := none
      logs := if env.verbose then [LogEvent.requestErr] else []
      panicked := true }
  else if env.sendOk = false then
    { finding := none
      logs := if env.verbose then [LogEvent.sendErr] else []
      panicked := false }
  else
    let body := if env.readOk then env.body else env.readSoFar
    let logs0 : List LogEvent :=
      if env.readOk then [] else if env.verbose then [LogEvent.readErr] else []
    if env.dnsOk then { finding := none, logs := logs0, panicked := false }
    else
      match extractTitle body with
      | none =>
        { finding := none, logs := logs0 ++ [LogEvent.interesting], panicked := true }
      | some title =>
        { finding := some
            { Host := s, IP := i
              ResponseHeaders := pairHeaderLines env.headers
              ResponseBody := body
              ResponseStatus := env.status
              Title := title }
          logs := logs0 ++ [LogEvent.interesting]
          panicked := false }

/-- `checkVHost` of the README revision: early `return` after every
per-probe error, finding stored into the `sync.Map` keyed by `s`, body
included only under the `-b` flag.  The DNS lookup result is a single
success bit: the code discards the resolved addresses (`_, err =
net.LookupIP(s)`), so which IPs DNS would return cannot influence the
outcome.  Each probe runs this function exactly once: no retry exists. -/
def checkVHostRm (env : ProbeEnv) (s i : String) : ProbeResult Results :=
  if env.dialOk = false then
    { finding := none
      logs := if env.verbose then [LogEvent.connectErr] else []
      panicked := false }
  else if env.reqOk = false then
    { finding := none
      logs := if env.verbose then [LogEvent.requestErr] else []
      panicked := false }
  else if env.sendOk = false then
    { finding := none
      logs := if env.verbose then [LogEvent.sendErr] else []
      panicked := false }
  else if env.readOk = false then
    { finding := none
      logs := if env.verbose then [LogEvent.readErr] else []
      panicked := false }
  else if env.dnsOk then { finding := none, logs := [], panicked := false }
  else
    match extractTitle env.body with
    | none =>
      { finding := none, logs := [LogEvent.interesting], panicked := true }
    | some title =>
      { finding := some
          { ResponseStatus := env.status
            Host := s, IP := i
            Title := title
            ResponseHeaders := joinedHeaderLines env.headers
            ResponseBody := if env.includeBody then env.body else "" }
        logs := [LogEvent.interesting]
        panicked := false }

/-- The probe tasks `main` launches for one record:
`for _, s := range t.SAN { for _, i := range t.IP { go checkVHost(s, i) } }`. -/
def probeTargets (t : TLSxResults) : List (String × String) :=
  t.SAN.flatMap (fun s => t.IP.map (fun i => (s, i)))

/-! ## Result model (README revision: `finalResults sync.Map`) -/

/-- `finalResults.Store(s, result)`: atomically set the value for a key in
the map.  The map is modelled as an association list of its entries. -/
def storeFinding (m : List (String × Results)) (k : String) (v : Results) :
    List (String × Results) :=
  if m.any (fun p => p.1 == k) then m.map (fun p => if p.1 == k then (k, v) else p)
  else m ++ [(k, v)]

/-- A sequence of `Store` operations applied to the empty map.  Concurrent
insertion from many probe goroutines is modelled as an arbitrary sequential
interleaving of the atomic `Store` operations (the `sync.Map` contract):
theorems about `applyStores` quantify over every such interleaving. -/
def applyStores (ops : List (String × Results)) : List (String × Results) :=
  ops.foldl (fun m p => storeFinding m p.1 p.2) []

/-- `Load` of the modelled map. -/
def lookupFinding (m : List (String × Results)) (k : String) : Option Results :=
  (m.find? (fun p => p.1 == k)).map Prod.snd

/-! ## Per-record DNS lookup name (`main`, before resolving the IPs) -/

/-- `strings.Replace(s, ":443", "", -1)`: remove every (left-to-right,
non-overlapping) occurrence of `:443`. -/
def stripPort : List Char → List Char
  | ':' :: '4' :: '4' :: '3' :: rest => stripPort rest
  | c :: rest => c :: stripPort rest
  | [] => []

/-- `strings.Replace(s, "https://", "", -1)`: remove every occurrence of
the scheme prefix string. -/
def stripScheme : List Char → List Char
  | 'h' :: 't' :: 't' :: 'p' :: 's' :: ':' :: '/' :: '/' :: rest => stripScheme rest
  | c :: rest => c :: stripScheme rest
  | [] => []

/-- The name `main` passes to `net.LookupIP` for a record
(`src/main.go` lines 180-182):
`host := strings.Replace(t.Host, "https://", "", -1)` followed by
`host = strings.Replace(t.Host, ":443", "", -1)` — the second assignment
reads `t.Host` again, discarding the first. -/
def lookupName (h : String) : String :=
  let _host := String.mk (stripScheme h.data)
  String.mk (stripPort h.data)

/-! ## Concrete inputs used by the claim witnesses and counterexamples -/

/-- A fully successful probe environment whose hostname resolves via DNS. -/
def c1OkEnv : ProbeEnv :=
  { dialOk := true, reqOk := true, sendOk := true, readOk := true
    status := "200 OK", headers := [("Server", ["nginx"])]
    body := "<title>Example</title>", readSoFar := ""
    dnsOk := true, verbose := false, includeBody := false }

/-- A fully successful probe environment, DNS lookup failing, whose body
holds an unterminated `<title>` marker. -/
def c1BadEnv : ProbeEnv :=
  { dialOk := true, reqOk := true, sendOk := true, readOk := true
    status := "200 OK", headers := [], body := "<title>Example", readSoFar := ""
    dnsOk := false, verbose := false, includeBody := false }

/-- A fully successful probe environment, DNS lookup failing, well-formed
title markers. -/
def c2Env : ProbeEnv :=
  { dialOk := true, reqOk := true, sendOk := true, readOk := true
    status := "200 OK", headers := [], body := "<title>Example</title>", readSoFar := ""
    dnsOk := false, verbose := false, includeBody := false }

/-- A probe environment whose request construction fails. -/
def c3ReqFailEnv : ProbeEnv :=
  { dialOk := true, reqOk := false, sendOk := true, readOk := true
    status := "", headers := [], body := "", readSoFar := ""
    dnsOk := false, verbose := true, includeBody := false }

/-- A probe environment whose body read fails midway, DNS lookup failing. -/
def c3ReadFailEnv : ProbeEnv :=
  { dialOk := true, reqOk := true, sendOk := true, readOk := false
    status := "200 OK", headers := [], body := ""
    readSoFar := "<title>Partial</title>"
    dnsOk := false, verbose := false, includeBody := false }

/-- A probe environment whose request send fails. -/
def c3SendFailEnv : ProbeEnv :=
  { dialOk := true, reqOk := true, sendOk := false, readOk := true
    status := "", headers := [], body := "", readSoFar := ""
    dnsOk := false, verbose := false, includeBody := false }

/-- A probe environment whose TLS dial fails, with verbose logging on. -/
def c4Env : ProbeEnv :=
  { dialOk := false, reqOk := true, sendOk := true, readOk := true
    status := "200 OK", headers := [], body := "", readSoFar := ""
    dnsOk := false, verbose := true, includeBody := false }

/-- Input lines exercising host and SAN deduplication. -/
def c5Lines : List String := ["h [a]", "h [b]", "g [a]", "h [a]"]

/-- A record with three SAN names and two resolved IPs. -/
def c7A : TLSxResults :=
  { Host := "h", IP := ["1.1.1.1", "2.2.2.2"], SAN := ["a", "b", "c"] }

/-- A record whose IP resolution yielded nothing. -/
def c7B : TLSxResults := { Host := "g", IP := [], SAN := ["x"] }

/-- A finding for a host at its first interesting IP. -/
def c8R1 : Results :=
  { ResponseStatus := "200 OK", Host := "internal.example.com", IP := "10.0.0.1"
    Title := "first", ResponseHeaders := [], ResponseBody := "" }

/-- A finding for the same host at a second interesting IP. -/
def c8R2 : Results :=
  { ResponseStatus := "200 OK", Host := "internal.example.com", IP := "10.0.0.2"
    Title := "second", ResponseHeaders := [], ResponseBody := "" }

/-- The finding each of the hundred concurrent probes stores. -/
def c9Res : Results :=
  { ResponseStatus := "200 OK", Host := "", IP := "10.0.0.5", Title := ""
    ResponseHeaders := [], ResponseBody := "" }

/-- One hundred Store operations for one hundred distinct hostnames. -/
def c9Ops : List (String × Results) :=
  (List.range 100).map (fun k => (String.mk (List.replicate k 'a'), c9Res))

/-! ## Helper lemmas: first-seen deduplication -/

theorem nodup_append_singleton {α : Type} {l : List α} {a : α} (ha : a ∉ l) (hl : l.Nodup) :
    (l ++ [a]).Nodup := by
  induction l with
  | nil => simp
  | cons b t ih =>
    rcases List.nodup_cons.1 hl with ⟨hbt, htn⟩
    have hat : a ∉ t := fun h => ha (List.mem_cons_of_mem _ h)
    have hba : b ≠ a := fun e => ha (e ▸ List.mem_cons_self b t)
    simp only [List.cons_append, List.nodup_cons, List.mem_append, List.mem_singleton]
    exact ⟨fun h => h.elim hbt hba, ih hat htn⟩

theorem mem_foldl_pushFS (l : List String) :
    ∀ (acc : List String) (x : String), x ∈ l.foldl pushFS acc ↔ x ∈ acc ∨ x ∈ l := by
  induction l with
  | nil => intro acc x; simp
  | cons a t ih =>
    intro acc x
    rw [List.foldl_cons, ih]
    unfold pushFS
    by_cases h : a ∈ acc
    · rw [if_pos h]
      constructor
      · rintro (hx | hx)
        · exact Or.inl hx
        · exact Or.inr (List.mem_cons_of_mem a hx)
      · rintro (hx | hx)
        · exact Or.inl hx
        · rcases List.mem_cons.1 hx with rfl | hx2
          · exact Or.inl h
          · exact Or.inr hx2
    · rw [if_neg h]
      simp only [List.mem_append, List.mem_cons, List.mem_singleton]
      tauto

theorem mem_dedupFS (x : String) (l : List String) : x ∈ dedupFS l ↔ x ∈ l := by
  unfold dedupFS
  rw [mem_foldl_pushFS]
  simp

theorem nodup_foldl_pushFS (l : List String) :
    ∀ acc : List String, acc.Nodup → (l.foldl pushFS acc).Nodup := by
  induction l with
  | nil => intro acc h; exact h
  | cons a t ih =>
    intro acc h
    rw [List.foldl_cons]
    apply ih
    unfold pushFS
    by_cases hm : a ∈ acc
    · rwa [if_pos hm]
    · rw [if_neg hm]
      exact nodup_append_singleton hm h

theorem nodup_dedupFS (l : List String) : (dedupFS l).Nodup :=
  nodup_foldl_pushFS l [] (by simp)

theorem dedupFS_append_single (l : List String) (x : String) :
    dedupFS (l ++ [x]) = if x ∈ l then dedupFS l else dedupFS l ++ [x] := by
  have h1 : dedupFS (l ++ [x]) = pushFS (dedupFS l) x := by
    unfold dedupFS
    rw [List.foldl_append]
    simp only [List.foldl_cons, List.foldl_nil]
  rw [h1, pushFS]
  by_cases h : x ∈ l
  · rw [if_pos ((mem_dedupFS x l).2 h), if_pos h]
  · rw [if_neg (fun hh => h ((mem_dedupFS x l).1 hh)), if_neg h]

theorem foldl_pushFS_of_disjoint (l : List String) :
    ∀ acc : List String, (∀ x ∈ l, x ∉ acc) → l.Nodup → l.foldl pushFS acc = acc ++ l := by
  induction l with
  | nil => intro acc _ _; simp
  | cons a t ih =>
    intro acc hd hn
    rcases List.nodup_cons.1 hn with ⟨hat, htn⟩
    rw [List.foldl_cons]
    have ha : a ∉ acc := hd a (List.mem_cons_self a t)
    rw [pushFS]
    rw [if_neg ha]
    have hstep : ∀ x ∈ t, x ∉ acc ++ [a] := by
      intro x hx hmem
      rcases List.mem_append.1 hmem with h1 | h2
      · exact hd x (List.mem_cons_of_mem a hx) h1
      · rw [List.mem_singleton] at h2
        subst h2
        exact hat hx
    rw [ih (acc ++ [a]) hstep htn]
    simp

theorem dedupFS_of_nodup (l : List String) (h : l.Nodup) : dedupFS l = l := by
  unfold dedupFS
  rw [foldl_pushFS_of_disjoint l [] (by simp) h]
  simp

/-! ## Helper lemmas: the aggregator insertion step -/

theorem updateHost_map_not_mem (f : String → TLSxResults) (hf : ∀ a, (f a).Host = a)
    (h san : String) :
    ∀ D : List String, h ∉ D → updateHost (D.map f) h san = none := by
  intro D
  induction D with
  | nil => intro _; rfl
  | cons d t ih =>
    intro hmem
    have hd : d ≠ h := fun e => hmem (e ▸ List.mem_cons_self d t)
    have ht : h ∉ t := fun e => hmem (List.mem_cons_of_mem d e)
    simp only [List.map_cons, updateHost]
    rw [hf d, if_neg hd, ih ht]
    rfl

theorem updateHost_map_mem (f : String → TLSxResults) (hf : ∀ a, (f a).Host = a)
    (h san : String) :
    ∀ D : List String, D.Nodup → h ∈ D →
      updateHost (D.map f) h san
        = some (D.map (fun a => if a = h then applySan (f h) san else f a)) := by
  intro D
  induction D with
  | nil => intro _ hmem; cases hmem
  | cons d t ih =>
    intro hD hmem
    rcases List.nodup_cons.1 hD with ⟨hdt, htn⟩
    simp only [List.map_cons, updateHost]
    rw [hf d]
    by_cases e : d = h
    · subst e
      rw [if_pos rfl, if_pos rfl]
      congr 2
      apply List.map_congr_left
      intro a hat
      rw [if_neg (fun e2 : a = d => hdt (e2 ▸ hat))]
    · rw [if_neg e]
      have hmt : h ∈ t := by
        rcases List.mem_cons.1 hmem with e2 | e2
        · exact absurd e2.symm e
        · exact e2
      rw [ih htn hmt, if_neg e]
      rfl

theorem sansFor_append_single (Q : List (String × String)) (p : String × String) (a : String) :
    sansFor (Q ++ [p]) a = sansFor Q a ++ (if p.1 = a then [p.2] else []) := by
  by_cases h : p.1 = a
  · simp [sansFor, List.filter_append, List.filter_cons, beq_iff_eq, h]
  · simp [sansFor, List.filter_append, List.filter_cons, beq_iff_eq, h]

theorem sansFor_nil_of_not_mem (Q : List (String × String)) (a : String)
    (h : a ∉ Q.map Prod.fst) : sansFor Q a = [] := by
  unfold sansFor
  have hf : Q.filter (fun p => p.1 == a) = [] := by
    apply List.filter_eq_nil_iff.2
    intro q hq
    simp only [beq_iff_eq]
    intro he
    exact h (List.mem_map.2 ⟨q, hq, he⟩)
  rw [hf]
  rfl

theorem applySan_specRecord (Q : List (String × String)) (p : String × String) :
    applySan (specRecord Q p.1) p.2 = specRecord (Q ++ [p]) p.1 := by
  simp only [applySan, specRecord]
  rw [sansFor_append_single, if_pos rfl, dedupFS_append_single]
  by_cases h : p.2 ∈ sansFor Q p.1
  · rw [if_pos ((mem_dedupFS _ _).2 h), if_pos h]
  · rw [if_neg (fun hh => h ((mem_dedupFS _ _).1 hh)), if_neg h]

theorem specRecord_append_ne (Q : List (String × String)) (p : String × String) (a : String)
    (h : a ≠ p.1) : specRecord (Q ++ [p]) a = specRecord Q a := by
  unfold specRecord
  rw [sansFor_append_single, if_neg (fun e => h e.symm)]
  simp

theorem aggSpec_ne_nil (Q : List (String × String)) (hQ : Q ≠ []) : aggSpec Q ≠ [] := by
  intro habs
  rcases List.exists_cons_of_ne_nil hQ with ⟨q, Q2, rfl⟩
  unfold aggSpec at habs
  have hD : dedupFS ((q :: Q2).map Prod.fst) = [] := List.map_eq_nil_iff.1 habs
  have hq : q.1 ∈ dedupFS ((q :: Q2).map Prod.fst) :=
    (mem_dedupFS _ _).2 (by simp)
  rw [hD] at hq
  cases hq

theorem step_of_update_some (acc acc2 : List TLSxResults) (p : String × String)
    (hne : ¬acc.length = 0) (h : updateHost acc p.1 p.2 = some acc2) : step acc p = acc2 := by
  rw [step, if_neg hne, h]

theorem step_of_update_none (acc : List TLSxResults) (p : String × String)
    (hne : ¬acc.length = 0) (h : updateHost acc p.1 p.2 = none) :
    step acc p = acc ++ [{ Host := p.1, IP := [], SAN := [p.2] }] := by
  rw [step, if_neg hne, h]

/-! ## The aggregator computes the specified records -/

theorem step_aggSpec (Q : List (String × String)) (p : String × String) :
    step (aggSpec Q) p = aggSpec (Q ++ [p]) := by
  by_cases hQ : Q = []
  · subst hQ
    simp [step, aggSpec, specRecord, sansFor, dedupFS, pushFS, List.filter_cons]
  · have hne : aggSpec Q ≠ [] := aggSpec_ne_nil Q hQ
    have hlen : ¬(aggSpec Q).length = 0 := fun h0 => hne (List.length_eq_zero.1 h0)
    by_cases hmem : p.1 ∈ Q.map Prod.fst
    · have hD : p.1 ∈ dedupFS (Q.map Prod.fst) := (mem_dedupFS _ _).2 hmem
      have hup := updateHost_map_mem (specRecord Q) (fun a => rfl) p.1 p.2
        (dedupFS (Q.map Prod.fst)) (nodup_dedupFS _) hD
      rw [step_of_update_some (aggSpec Q) _ p hlen hup]
      show _ = (dedupFS ((Q ++ [p]).map Prod.fst)).map (specRecord (Q ++ [p]))
      rw [List.map_append]
      simp only [List.map_cons, List.map_nil]
      rw [dedupFS_append_single, if_pos hmem]
      apply List.map_congr_left
      intro a ha
      by_cases e : a = p.1
      · rw [if_pos e, e]
        exact applySan_specRecord Q p
      · rw [if_neg e, specRecord_append_ne Q p a e]
    · have hD : p.1 ∉ dedupFS (Q.map Prod.fst) := fun hh => hmem ((mem_dedupFS _ _).1 hh)
      have hup := updateHost_map_not_mem (specRecord Q) (fun a => rfl) p.1 p.2
        (dedupFS (Q.map Prod.fst)) hD
      rw [step_of_update_none (aggSpec Q) p hlen hup]
      show _ = (dedupFS ((Q ++ [p]).map Prod.fst)).map (specRecord (Q ++ [p]))
      rw [List.map_append]
      simp only [List.map_cons, List.map_nil]
      rw [dedupFS_append_single, if_neg hmem, List.map_append]
      congr 1
      · show (dedupFS (Q.map Prod.fst)).map (specRecord Q) = _
        apply List.map_congr_left
        intro a ha
        have e : a ≠ p.1 := fun e2 => hD (e2 ▸ ha)
        exact (specRecord_append_ne Q p a e).symm
      · simp only [List.map_cons, List.map_nil]
        congr 1
        unfold specRecord
        rw [sansFor_append_single, if_pos rfl, sansFor_nil_of_not_mem Q p.1 hmem]
        simp [dedupFS, pushFS]

theorem aggPairs_append_single (Q : List (String × String)) (p : String × String) :
    aggPairs (Q ++ [p]) = step (aggPairs Q) p := by
  unfold aggPairs
  rw [List.foldl_append]
  rfl

theorem aggPairs_eq_aggSpec (P : List (String × String)) : aggPairs P = aggSpec P := by
  induction P using List.reverseRecOn with
  | nil => rfl
  | append_singleton Q p ih => rw [aggPairs_append_single, ih, step_aggSpec]

theorem processLine_eq (acc : List TLSxResults) (raw : String) :
    processLine acc raw = match lineTokens raw with
      | none => acc
      | some p => step acc p := by
  unfold processLine lineTokens step
  by_cases h1 : goTrimSpace raw = ""
  · simp [h1]
  · by_cases h2 : (goSplitSpace (goTrimSpace raw)).length < 2
    · simp [h1, h2]
    · simp [h1, h2]

theorem foldl_processLine_eq (lines : List String) :
    ∀ acc : List TLSxResults,
      lines.foldl processLine acc = (lines.filterMap lineTokens).foldl step acc := by
  induction lines with
  | nil => intro acc; rfl
  | cons raw rest ih =>
    intro acc
    cases hlt : lineTokens raw with
    | none =>
      simp only [List.foldl_cons, processLine_eq, hlt, List.filterMap_cons]
      exact ih acc
    | some p =>
      simp only [List.foldl_cons, processLine_eq, hlt, List.filterMap_cons]
      exact ih (step acc p)

theorem parseLines_eq_aggPairs (lines : List String) :
    parseLines lines = aggPairs (lines.filterMap lineTokens) :=
  foldl_processLine_eq lines []

theorem parseLines_eq_aggSpec (lines : List String) :
    parseLines lines = aggSpec (lines.filterMap lineTokens) := by
  rw [parseLines_eq_aggPairs, aggPairs_eq_aggSpec]

/-! ## Helper lemmas: the result model -/

theorem any_iff_mem_keys (m : List (String × Results)) (k : String) :
    m.any (fun p => p.1 == k) = true ↔ k ∈ m.map Prod.fst := by
  rw [List.any_eq_true]
  constructor
  · rintro ⟨p, hp, he⟩
    exact List.mem_map.2 ⟨p, hp, beq_iff_eq.1 he⟩
  · intro hm
    rcases List.mem_map.1 hm with ⟨p, hp, he⟩
    exact ⟨p, hp, beq_iff_eq.2 he⟩

theorem store_map_fst (m : List (String × Results)) (k : String) (v : Results) :
    (storeFinding m k v).map Prod.fst
      = if m.any (fun p => p.1 == k) = true then m.map Prod.fst
        else m.map Prod.fst ++ [k] := by
  unfold storeFinding
  by_cases h : m.any (fun p => p.1 == k) = true
  · rw [if_pos h, if_pos h, List.map_map]
    apply List.map_congr_left
    intro p hp
    by_cases hp1 : (p.1 == k) = true
    · simp only [Function.comp]
      rw [if_pos hp1]
      exact (beq_iff_eq.1 hp1).symm
    · simp only [Function.comp]
      rw [if_neg hp1]
  · rw [if_neg h, if_neg h, List.map_append]
    rfl

theorem store_keys_nodup (m : List (String × Results)) (k : String) (v : Results)
    (h : (m.map Prod.fst).Nodup) : ((storeFinding m k v).map Prod.fst).Nodup := by
  rw [store_map_fst]
  by_cases ha : m.any (fun p => p.1 == k) = true
  · rw [if_pos ha]
    exact h
  · rw [if_neg ha]
    exact nodup_append_singleton (fun hm => ha ((any_iff_mem_keys m k).2 hm)) h

theorem applyStores_append_single (ops : List (String × Results)) (q : String × Results) :
    applyStores (ops ++ [q]) = storeFinding (applyStores ops) q.1 q.2 := by
  unfold applyStores
  rw [List.foldl_append]
  rfl

theorem applyStores_keys (ops : List (String × Results)) :
    (applyStores ops).map Prod.fst = dedupFS (ops.map Prod.fst) := by
  induction ops using List.reverseRecOn with
  | nil => rfl
  | append_singleton t q ih =>
    rw [applyStores_append_single, store_map_fst, ih, List.map_append]
    simp only [List.map_cons, List.map_nil]
    rw [dedupFS_append_single]
    have hany : ((applyStores t).any (fun p => p.1 == q.1) = true) ↔ q.1 ∈ t.map Prod.fst := by
      rw [any_iff_mem_keys, ih, mem_dedupFS]
    by_cases h : q.1 ∈ t.map Prod.fst
    · rw [if_pos (hany.2 h), if_pos h]
    · rw [if_neg (fun hh => h (hany.1 hh)), if_neg h]

theorem find?_map_store (k : String) (v : Results) :
    ∀ m : List (String × Results), m.any (fun p => p.1 == k) = true →
      List.find? (fun p => p.1 == k) (m.map (fun p => if p.1 == k then (k, v) else p))
        = some (k, v) := by
  intro m
  induction m with
  | nil => intro h; simp at h
  | cons q t ih =>
    intro h
    rw [List.map_cons]
    by_cases hq : (q.1 == k) = true
    · rw [if_pos hq]
      exact List.find?_cons_of_pos _ (beq_self_eq_true k)
    · rw [if_neg hq]
      have h2 : t.any (fun p => p.1 == k) = true := by
        rw [List.any_cons] at h
        rcases Bool.or_eq_true_iff.1 h with h3 | h3
        · exact absurd h3 hq
        · exact h3
      rw [List.find?_cons_of_neg _ (by exact hq)]
      exact ih h2

theorem find?_not_any (k : String) :
    ∀ m : List (String × Results), m.any (fun p => p.1 == k) = false →
      List.find? (fun p => p.1 == k) m = none := by
  intro m
  induction m with
  | nil => intro _; rfl
  | cons q t ih =>
    intro h
    rw [List.any_cons] at h
    have hq : (q.1 == k) = false := by
      cases hh : (q.1 == k)
      · rfl
      · rw [hh] at h
        simp at h
    have ht : t.any (fun p => p.1 == k) = false := by
      cases hh : t.any (fun p => p.1 == k)
      · rfl
      · rw [hh] at h
        simp at h
    rw [List.find?_cons_of_neg _ (by rw [hq]; exact Bool.false_ne_true)]
    exact ih ht

theorem lookup_store_self (m : List (String × Results)) (k : String) (v : Results) :
    lookupFinding (storeFinding m k v) k = some v := by
  unfold lookupFinding storeFinding
  by_cases h : m.any (fun p => p.1 == k) = true
  · rw [if_pos h, find?_map_store k v m h]
    rfl
  · have hf : m.any (fun p => p.1 == k) = false := by
      cases hh : m.any (fun p => p.1 == k)
      · rfl
      · exact absurd hh h
    rw [if_neg h, List.find?_append, find?_not_any k m hf]
    simp [List.find?]

theorem find?_map_store_other (k : String) (v : Results) (q : String) (hne : q ≠ k) :
    ∀ m : List (String × Results),
      List.find? (fun p => p.1 == q) (m.map (fun p => if p.1 == k then (k, v) else p))
        = List.find? (fun p => p.1 == q) m := by
  intro m
  induction m with
  | nil => rfl
  | cons r t ih =>
    rw [List.map_cons]
    have hkq : (k == q) = false := by
      cases hh : (k == q)
      · rfl
      · exact absurd (beq_iff_eq.1 hh).symm hne
    by_cases hr : (r.1 == k) = true
    · rw [if_pos hr]
      have hr1 : r.1 = k := beq_iff_eq.1 hr
      have hrq : (r.1 == q) = false := by rw [hr1]; exact hkq
      rw [List.find?_cons_of_neg _ (by rw [show ((k, v).1 == q) = false from hkq]; exact Bool.false_ne_true)]
      rw [List.find?_cons_of_neg _ (by rw [hrq]; exact Bool.false_ne_true)]
      exact ih
    · rw [if_neg hr]
      by_cases hrq : (r.1 == q) = true
      · rw [List.find?_cons_of_pos _ (by exact hrq), List.find?_cons_of_pos _ (by exact hrq)]
      · rw [List.find?_cons_of_neg _ (by exact hrq), List.find?_cons_of_neg _ (by exact hrq)]
        exact ih

theorem lookup_store_other (m : List (String × Results)) (k : String) (v : Results)
    (q : String) (hne : q ≠ k) :
    lookupFinding (storeFinding m k v) q = lookupFinding m q := by
  unfold lookupFinding storeFinding
  by_cases h : m.any (fun p => p.1 == k) = true
  · rw [if_pos h, find?_map_store_other k v q hne m]
  · rw [if_neg h, List.find?_append]
    have hkq : ((k, v).1 == q) = false := by
      cases hh : (k == q)
      · rfl
      · exact absurd (beq_iff_eq.1 hh).symm hne
    rw [List.find?_cons_of_neg _ (by rw [hkq]; exact Bool.false_ne_true)]
    rw [show List.find? (fun p => p.1 == q) ([] : List (String × Results)) = none from rfl]
    rw [Option.or_none]

theorem applyStores_lookup_last :
    ∀ ops : List (String × Results), (ops.map Prod.fst).Nodup →
      ∀ p ∈ ops, lookupFinding (applyStores ops) p.1 = some p.2 := by
  intro ops
  induction ops using List.reverseRecOn with
  | nil =>
    intro _ p hp
    cases hp
  | append_singleton t q ih =>
    intro h p hp
    rw [List.map_append] at h
    simp only [List.map_cons, List.map_nil] at h
    rcases List.nodup_append.1 h with ⟨h1, _, hdisj⟩
    have hq : q.1 ∉ t.map Prod.fst := fun hm => hdisj hm (List.mem_singleton_self q.1)
    rw [applyStores_append_single]
    rcases List.mem_append.1 hp with hp1 | hp2
    · have hne : p.1 ≠ q.1 := fun e => hq (e ▸ List.mem_map.2 ⟨p, hp1, rfl⟩)
      rw [lookup_store_other (applyStores t) q.1 q.2 p.1 hne]
      exact ih h1 p hp1
    · have he : p = q := List.mem_singleton.1 hp2
      subst he
      exact lookup_store_self (applyStores t) p.1 p.2

theorem applyStores_length_of_nodup (ops : List (String × Results))
    (h : (ops.map Prod.fst).Nodup) : (applyStores ops).length = ops.length := by
  have h1 : (applyStores ops).length = ((applyStores ops).map Prod.fst).length :=
    (List.length_map _ _).symm
  rw [h1, applyStores_keys, dedupFS_of_nodup _ h, List.length_map]

/-! ## Claim theorems -/

theorem probeTargets_eq_product (t : TLSxResults) :
    probeTargets t = t.SAN.product t.IP := rfl

/-- Claim C1 (code_bug): after a fully successful HTTP response, a
successful DNS lookup of the probed name always discards the finding —
nothing is stored and nothing printed, regardless of which addresses DNS
would return (the code never reads them).  But a failed DNS lookup does
NOT always forward the finding to the result model: with response body
`<title>Example` (unterminated marker) the title slice panics after the
`Interesting Vhost` print, the goroutine crashes the process and no
finding is stored. -/
theorem classifier_c1 :
    (∀ (env : ProbeEnv) (s i : String),
        env.dialOk = true → env.reqOk = true → env.sendOk = true → env.readOk = true →
        env.dnsOk = true →
        checkVHostRm env s i = { finding := none, logs := [], panicked := false })
    ∧ checkVHostRm c1BadEnv "internal.example.com" "10.0.0.5"
        = { finding := none, logs := [LogEvent.interesting], panicked := true } := by
  constructor
  · intro env s i h1 h2 h3 h4 h5
    simp [checkVHostRm, h1, h2, h3, h4, h5]
  · decide

/-- Witness for C1: the suppression direction evaluated at a concrete
fully successful, DNS-resolvable probe. -/
theorem classifier_c1_witness :
    checkVHostRm c1OkEnv "a.example.com" "10.0.0.5"
      = { finding := none, logs := [], panicked := false } :=
  classifier_c1.1 c1OkEnv "a.example.com" "10.0.0.5" rfl rfl rfl rfl rfl

/-- Claim C2 (code_bug): the extracted title is the text between the first
`<title>` and the first `</title>` when the latter closes the former, and
the empty string when `<title>` is absent; but extraction does not
terminate normally on every body — with `<title>` present and `</title>`
absent the slice bounds are 7 and -1, a runtime panic.  The last conjunct
shows the title flowing into the stored finding of a successful,
DNS-unresolvable probe. -/
theorem extractTitle_c2 :
    extractTitle "<html><head><title>Example</title></head></html>" = some "Example"
    ∧ extractTitle "<html><body>no markers</body></html>" = some ""
    ∧ extractTitle "<title>Example" = none
    ∧ (checkVHostRm c2Env "internal.example.com" "10.0.0.5").finding
        = some { ResponseStatus := "200 OK", Host := "internal.example.com"
                 IP := "10.0.0.5", Title := "Example", ResponseHeaders := []
                 ResponseBody := "" } := by
  refine ⟨by decide, by decide, by decide, by decide⟩

/-- Claim C3 (code_bug), over `checkVHost` of `src/main.go`/`part_000`:
a request-send failure is indeed non-fatal, not retried, and produces no
finding; but a request-construction failure panics (the code logs and
falls through to `httpReq.Host = s` on the nil request), and a body-read
failure still produces a finding out of the partially read body. -/
theorem probe_errors_c3 :
    (∀ (env : ProbeEnv) (s i : String),
        env.dialOk = true → env.reqOk = true → env.sendOk = false →
        checkVHost env s i
          = { finding := none, logs := if env.verbose then [LogEvent.sendErr] else []
              panicked := false })
    ∧ checkVHost c3ReqFailEnv "bad host" "10.0.0.5"
        = { finding := none, logs := [LogEvent.requestErr], panicked := true }
    ∧ (checkVHost c3ReadFailEnv "h.example.com" "10.0.0.5").finding
        = some { Host := "h.example.com", IP := "10.0.0.5", ResponseHeaders := []
                 ResponseBody := "<title>Partial</title>", ResponseStatus := "200 OK"
                 Title := "Partial" } := by
  refine ⟨?_, by decide, by decide⟩
  intro env s i h1 h2 h3
  simp [checkVHost, h1, h2, h3]

/-- Witness for C3: the send-failure conjunct at a concrete environment. -/
theorem probe_errors_c3_witness :
    checkVHost c3SendFailEnv "h.example.com" "10.0.0.5"
      = { finding := none, logs := if c3SendFailEnv.verbose then [LogEvent.sendErr] else []
          panicked := false } :=
  probe_errors_c3.1 c3SendFailEnv "h.example.com" "10.0.0.5" rfl rfl rfl

/-- Claim C4: in both revisions a TLS dial failure terminates the probe
with no finding and no panic (the error is not surfaced), it is not
retried (the probe function is run exactly once per pair and returns
immediately), and the connect error is logged exactly when verbose
diagnostics are enabled. -/
theorem probe_dialfail_c4 (env : ProbeEnv) (s i : String) (h : env.dialOk = false) :
    checkVHost env s i
        = { finding := none, logs := if env.verbose then [LogEvent.connectErr] else []
            panicked := false }
    ∧ checkVHostRm env s i
        = { finding := none, logs := if env.verbose then [LogEvent.connectErr] else []
            panicked := false } := by
  constructor
  · rw [checkVHost, if_pos h]
  · rw [checkVHostRm, if_pos h]

/-- Witness for C4 at a concrete dial-failing, verbose environment. -/
theorem probe_dialfail_c4_witness :
    checkVHost c4Env "internal.example.com" "10.0.0.5"
        = { finding := none, logs := if c4Env.verbose then [LogEvent.connectErr] else []
            panicked := false }
    ∧ checkVHostRm c4Env "internal.example.com" "10.0.0.5"
        = { finding := none, logs := if c4Env.verbose then [LogEvent.connectErr] else []
            panicked := false } :=
  probe_dialfail_c4 c4Env "internal.example.com" "10.0.0.5" rfl

/-- Claim C5: for every input, the aggregator yields the hostnames of the
valid lines deduplicated in first-seen order — exactly one record per
distinct hostname — and every record carries the SAN values of all lines
bearing its hostname, deduplicated in first-seen order, hence without
duplicates however often a (hostname, SAN) pair repeats. -/
theorem aggregator_dedup_c5 (lines : List String) :
    (parseLines lines).map (fun r => r.Host)
        = dedupFS ((lines.filterMap lineTokens).map Prod.fst)
    ∧ ∀ r, r ∈ parseLines lines →
        r.SAN = dedupFS (sansFor (lines.filterMap lineTokens) r.Host) ∧ r.SAN.Nodup := by
  have hP := parseLines_eq_aggSpec lines
  constructor
  · rw [hP]
    unfold aggSpec
    rw [List.map_map]
    exact List.map_id _
  · intro r hr
    rw [hP] at hr
    rcases List.mem_map.1 hr with ⟨h, hh, rfl⟩
    exact ⟨rfl, nodup_dedupFS _⟩

/-- Witness for C5 on concrete lines with repeated hosts and SANs. -/
theorem aggregator_dedup_c5_witness :
    (parseLines c5Lines).map (fun r => r.Host)
        = dedupFS ((c5Lines.filterMap lineTokens).map Prod.fst)
    ∧ (({ Host := "h", IP := [], SAN := ["a", "b"] } : TLSxResults).SAN
          = dedupFS (sansFor (c5Lines.filterMap lineTokens)
              ({ Host := "h", IP := [], SAN := ["a", "b"] } : TLSxResults).Host)
        ∧ ({ Host := "h", IP := [], SAN := ["a", "b"] } : TLSxResults).SAN.Nodup) :=
  ⟨(aggregator_dedup_c5 c5Lines).1,
    (aggregator_dedup_c5 c5Lines).2 { Host := "h", IP := [], SAN := ["a", "b"] } (by decide)⟩

/-- Claim C6 (corrected): lines empty after trimming, or splitting into
fewer than two fields on single space characters, contribute nothing to
the parsed records; every other line contributes space-split token 0 as
hostname and token 1, trimmed of leading and trailing square brackets, as
SAN.  (The claim spoke of whitespace-delimited tokens; the source splits
on the space character only, see the counterexample.) -/
theorem aggregator_skip_c6 :
    (∀ lines : List String, parseLines lines = aggPairs (lines.filterMap lineTokens))
    ∧ (∀ raw : String,
        lineTokens raw = none
          ↔ (goTrimSpace raw = "" ∨ (goSplitSpace (goTrimSpace raw)).length < 2))
    ∧ (∀ (raw : String) (p : String × String), lineTokens raw = some p →
        p = ((goSplitSpace (goTrimSpace raw)).getD 0 "",
             goTrimBrackets ((goSplitSpace (goTrimSpace raw)).getD 1 ""))) := by
  refine ⟨parseLines_eq_aggPairs, ?_, ?_⟩
  · intro raw
    unfold lineTokens
    by_cases h1 : goTrimSpace raw = ""
    · simp [h1]
    · by_cases h2 : (goSplitSpace (goTrimSpace raw)).length < 2
      · simp [h1, h2]
      · simp [h1, h2]
  · intro raw p hp
    unfold lineTokens at hp
    by_cases h1 : goTrimSpace raw = ""
    · simp [h1] at hp
    · by_cases h2 : (goSplitSpace (goTrimSpace raw)).length < 2
      · simp [h1, h2] at hp
      · simp [h1, h2] at hp
        simpa using hp.symm

/-- Witness for C6: a valid line parsed, and the skip condition evaluated. -/
theorem aggregator_skip_c6_witness :
    parseLines ["x [y]"] = aggPairs ((["x [y]"] : List String).filterMap lineTokens)
    ∧ (lineTokens "" = none
        ↔ (goTrimSpace "" = "" ∨ (goSplitSpace (goTrimSpace "")).length < 2))
    ∧ ("x", "y") = ((goSplitSpace (goTrimSpace "x [y]")).getD 0 "",
          goTrimBrackets ((goSplitSpace (goTrimSpace "x [y]")).getD 1 "")) :=
  ⟨aggregator_skip_c6.1 ["x [y]"], aggregator_skip_c6.2.1 "",
    aggregator_skip_c6.2.2 "x [y]" ("x", "y") (by decide)⟩

/-- Counterexample to C6 as stated: the line `a<TAB>b` has two
whitespace-delimited tokens, so the claim says it is parsed into a record
with hostname `a` and SAN `b` (the third conjunct computes the record that
insertion of those tokens would produce) — but the parser, splitting on
the space character only, sees one field and skips the line. -/
theorem aggregator_c6_counterexample :
    specFields "a\tb" = ["a", "b"]
    ∧ parseLines ["a\tb"] = []
    ∧ aggPairs [("a", "b")] = [{ Host := "a", IP := [], SAN := ["b"] }] := by
  refine ⟨by decide, by decide, by decide⟩

/-- Claim C7: per record, the launched probe tasks are exactly the cross
product of the SAN list and the resolved-IP list: the count is the product
of the lengths (zero when no IP resolved), every (name, ip) pair of the
two lists is probed, and, when both lists hold no duplicates, no pair is
probed twice. -/
theorem probeEngine_c7 (t : TLSxResults) :
    (probeTargets t).length = t.SAN.length * t.IP.length
    ∧ (∀ s i : String, ((s, i) ∈ probeTargets t) ↔ (s ∈ t.SAN ∧ i ∈ t.IP))
    ∧ (t.SAN.Nodup → t.IP.Nodup → (probeTargets t).Nodup)
    ∧ (t.IP = [] → probeTargets t = []) := by
  refine ⟨?_, ?_, ?_, ?_⟩
  · rw [probeTargets_eq_product]
    exact List.length_product t.SAN t.IP
  · intro s i
    rw [probeTargets_eq_product]
    exact List.mem_product
  · intro h1 h2
    rw [probeTargets_eq_product]
    exact List.Nodup.product h1 h2
  · intro h
    rw [probeTargets_eq_product, h]
    exact List.product_nil t.SAN

/-- Witness for C7 on a record with three SANs and two IPs, and one with
no resolved IP. -/
theorem probeEngine_c7_witness :
    (probeTargets c7A).length = c7A.SAN.length * c7A.IP.length
    ∧ ((("a", "1.1.1.1") ∈ probeTargets c7A) ↔ ("a" ∈ c7A.SAN ∧ "1.1.1.1" ∈ c7A.IP))
    ∧ (probeTargets c7A).Nodup
    ∧ probeTargets c7B = [] :=
  ⟨(probeEngine_c7 c7A).1, (probeEngine_c7 c7A).2.1 "a" "1.1.1.1",
    (probeEngine_c7 c7A).2.2.1 (by decide) (by decide),
    (probeEngine_c7 c7B).2.2.2 rfl⟩

/-- Claim C8: the result model keys findings by hostname alone — after any
sequence of Store operations the keys are duplicate-free (at most one
finding per hostname), the finding retained for a key is the last one
stored for it, and two findings for the same host at different IPs leave
only the later one. -/
theorem resultModel_c8 :
    (∀ ops : List (String × Results), ((applyStores ops).map Prod.fst).Nodup)
    ∧ (∀ (ops : List (String × Results)) (k : String) (v : Results),
        lookupFinding (applyStores (ops ++ [(k, v)])) k = some v)
    ∧ applyStores [(c8R1.Host, c8R1), (c8R2.Host, c8R2)] = [(c8R2.Host, c8R2)] := by
  refine ⟨?_, ?_, by decide⟩
  · intro ops
    rw [applyStores_keys]
    exact nodup_dedupFS _
  · intro ops k v
    rw [applyStores_append_single]
    exact lookup_store_self (applyStores ops) k v

/-- Claim C9: one hundred Store operations for one hundred distinct
hostnames, inserted in any order (concurrent insertion modelled as an
arbitrary interleaving of the atomic `sync.Map.Store` calls, with no
locking by the inserting tasks), leave exactly one hundred findings, and
no update is lost: every hostname maps to the finding its probe stored. -/
theorem resultModel_c9 (ops : List (String × Results))
    (h1 : (ops.map Prod.fst).Nodup) (h2 : ops.length = 100) :
    (applyStores ops).length = 100
    ∧ ∀ p ∈ ops, lookupFinding (applyStores ops) p.1 = some p.2 := by
  constructor
  · rw [applyStores_length_of_nodup ops h1, h2]
  · exact applyStores_lookup_last ops h1

/-- Witness for C9 at one hundred concrete distinct hostnames. -/
theorem resultModel_c9_witness :
    (applyStores c9Ops).length = 100
    ∧ lookupFinding (applyStores c9Ops) "" = some c9Res := by
  have hinj : Function.Injective (fun k : Nat => String.mk (List.replicate k 'a')) := by
    intro a b hab
    have hlen := congrArg String.length hab
    simpa using hlen
  have hN : (c9Ops.map Prod.fst).Nodup := by
    have he : c9Ops.map Prod.fst
        = (List.range 100).map (fun k => String.mk (List.replicate k 'a')) := by
      unfold c9Ops
      rw [List.map_map]
      rfl
    rw [he]
    exact (List.nodup_range 100).map hinj
  have hL : c9Ops.length = 100 := by
    unfold c9Ops
    rw [List.length_map, List.length_range]
  have hmem : (("", c9Res) : String × Results) ∈ c9Ops := by
    unfold c9Ops
    refine List.mem_map.2 ⟨0, ?_, rfl⟩
    simp
  exact ⟨(resultModel_c9 c9Ops hN hL).1, (resultModel_c9 c9Ops hN hL).2 ("", c9Res) hmem⟩

/-- Claim C10: the name handed to the per-record `net.LookupIP` equals the
record hostname with every `:443` removed; the preceding assignment that
strips `https://` is discarded because the next statement reads `t.Host`
again, so a `https://`-prefixed hostname keeps its prefix (second
conjunct), even though the discarded computation would have removed it
(third conjunct). -/
theorem lookupName_c10 :
    (∀ h : String, lookupName h = String.mk (stripPort h.data))
    ∧ lookupName "https://internal.example.com:443" = "https://internal.example.com"
    ∧ String.mk (stripScheme ("https://internal.example.com:443").data)
        = "internal.example.com:443" := by
  refine ⟨fun h => rfl, by decide, by decide⟩
